import Mathlib

/-!
Verification of the NMEA batch parsing and point-construction pipeline of the
Spitz-Puli GPS streamer (src/server-setup/src/main.py).

The embedding translates the Python source shallowly:
  * Python `float`/`int` values are modelled as `ℚ`/`ℤ`; timestamps as `ℕ`
    (an abstract clock index).
  * The third-party NMEA decode capability (pynmea2) is an external
    collaborator; decoded sentence objects are modelled from the spec as
    records of possibly-absent raw string attributes (`Option String`);
    `none` covers both a missing attribute (`hasattr` false) and an
    attribute whose value is Python `None`, which the source treats alike.
  * Python exceptions are modelled by `Option`-valued results; the
    process-wide mutable `stats` dictionary and the capture-time clock are
    threaded explicitly through the functions that touch them.
-/

namespace GPS

/-- A value stored in a measurement point field: Python float, int or str. -/
inductive PValue where
  | f (q : ℚ)
  | i (n : ℤ)
  | s (v : String)
deriving DecidableEq

/-- A measurement point (influxdb `Point`): name, timestamp, ordered fields. -/
structure Point where
  name : String
  time : ℕ
  fields : List (String × PValue)
deriving DecidableEq

/-- The process-wide `stats` dictionary of main.py. -/
structure Stats where
  sentences_received : ℕ
  sentences_parsed : ℕ
  points_written : ℕ
  last_position : Option (ℚ × ℚ)
  last_update : Option ℕ
deriving DecidableEq

/-- Initial statistics (main.py lines 34-40). -/
def st0 : Stats := ⟨0, 0, 0, none, none⟩

/-- `stats["sentences_parsed"] += 1` (main.py line 255). -/
def incParsed (st : Stats) : Stats :=
  { st with sentences_parsed := st.sentences_parsed + 1 }

/-- Modelled from the spec: a decoded NMEA sentence object returned by the
external decode capability (pynmea2, not part of this repository).  Per spec
§6 a `SentenceObject` exposes named, possibly-absent attributes; each
attribute is modelled as an optional raw string.  The numbered slot
attributes (`sv_prn_01` .. `sv_prn_04`, `sv_id01` .. `sv_id12`, elevation /
azimuth / snr per slot) are modelled as functions from the slot index. -/
structure GpsMsg where
  latitude : Option String
  longitude : Option String
  altitude : Option String
  gps_qual : Option String
  num_sats : Option String
  horizontal_dil : Option String
  spd_over_grnd : Option String
  true_course : Option String
  timestamp : Option String
  num_messages : Option String
  msg_num : Option String
  num_sv_in_view : Option String
  sv_prn : ℕ → Option String
  elevation : ℕ → Option String
  azimuth : ℕ → Option String
  snr : ℕ → Option String
  mode : Option String
  mode_fix_type : Option String
  sv_id : ℕ → Option String
  pdop : Option String
  hdop : Option String
  vdop : Option String
  system_id : Option String
  true_track : Option String
  mag_track : Option String
  spd_over_grnd_kts : Option String
  spd_over_grnd_kmph : Option String
  faa_mode : Option String

/-- A decoded sentence with every attribute absent. -/
def emptyMsg : GpsMsg :=
  ⟨none, none, none, none, none, none, none, none, none, none, none, none,
   fun _ => none, fun _ => none, fun _ => none, fun _ => none,
   none, none, fun _ => none, none, none, none, none, none, none, none,
   none, none⟩

/-! ### Python string primitives, modelled on character lists -/

/-- Characters stripped by Python `str.strip()` (ASCII whitespace). -/
def isPySpace (c : Char) : Bool :=
  c = ' ' || c = '\t' || c = '\n' || c = '\r' || c = '\x0b' || c = '\x0c'

/-- Python `str.strip()` on a character list. -/
def trimChars (cs : List Char) : List Char :=
  ((cs.dropWhile isPySpace).reverse.dropWhile isPySpace).reverse

/-- Python `sentence.strip()`. -/
def stripStr (s : String) : String := ⟨trimChars s.data⟩

/-- Python `sentence[:6]`, the 6-character sentence type key. -/
def skey (s : String) : String := ⟨s.data.take 6⟩

/-- Python `sentence.startswith('$')`. -/
def isCand (cs : List Char) : Bool := cs.head? == some '$'

/-- Python `str.replace('\r\n', '\n')`: left-to-right non-overlapping. -/
def replCRLF : List Char → List Char
  | '\r' :: '\n' :: rest => '\n' :: replCRLF rest
  | c :: rest => c :: replCRLF rest
  | [] => []

/-- Python `str.replace('\r', '\n')`. -/
def replCR (cs : List Char) : List Char :=
  cs.map fun c => if c = '\r' then '\n' else c

/-- Python `str.split(sep)` for a single separator character: keeps empty
pieces, `"".split` gives one empty piece. -/
def splitOnChar (sep : Char) : List Char → List (List Char)
  | [] => [[]]
  | c :: rest =>
    if c = sep then
      [] :: splitOnChar sep rest
    else
      match splitOnChar sep rest with
      | [] => [[c]]
      | p :: ps => (c :: p) :: ps

/-! ### Numeric conversion -/

/-- Digits of a numeral to a natural number. -/
def digitsToNat (l : List Char) : ℕ :=
  l.foldl (fun a c => 10 * a + (c.toNat - 48)) 0

/-- Modelled from the spec: Python `float(s)` on the plain decimal strings
carried by NMEA fields (optional sign, digits, optional fractional part);
any other string fails the conversion.  Failure (Python `ValueError`) is
`none`. -/
def pyFloat (s : String) : Option ℚ :=
  let sb : ℤ × List Char :=
    match s.data with
    | '-' :: t => (-1, t)
    | '+' :: t => (1, t)
    | t => (1, t)
  let ip := sb.2.takeWhile (fun ch => ch ≠ '.')
  let rest := sb.2.dropWhile (fun ch => ch ≠ '.')
  match rest with
  | [] =>
    if ip ≠ [] ∧ ip.all Char.isDigit then some (mkRat (sb.1 * digitsToNat ip) 1)
    else none
  | _ :: fp =>
    if (ip ≠ [] ∨ fp ≠ []) ∧ ip.all Char.isDigit ∧ fp.all Char.isDigit then
      some (mkRat (sb.1 * (digitsToNat ip * 10 ^ fp.length + digitsToNat fp)) (10 ^ fp.length))
    else none

/-- Modelled from the spec: Python `int(s)` on plain decimal strings
(optional sign, digits only); failure is `none`. -/
def pyInt (s : String) : Option ℤ :=
  match s.data with
  | '-' :: t => if t ≠ [] ∧ t.all Char.isDigit then some (-(digitsToNat t : ℤ)) else none
  | '+' :: t => if t ≠ [] ∧ t.all Char.isDigit then some ((digitsToNat t : ℤ)) else none
  | t => if t ≠ [] ∧ t.all Char.isDigit then some ((digitsToNat t : ℤ)) else none

/-- Python truthiness of a possibly-absent raw string attribute:
`None` and `''` are falsy, any other string truthy. -/
def truthy : Option String → Bool
  | none => false
  | some s => s != ""

/-- main.py `safe_float` (lines 43-48): `float(value) if value is not None
and value != '' else None`, with conversion errors caught to `None`. -/
def safe_float (v : Option String) : Option ℚ :=
  match v with
  | none => none
  | some s => if s = "" then none else pyFloat s

/-- main.py `safe_int` (lines 51-56). -/
def safe_int (v : Option String) : Option ℤ :=
  match v with
  | none => none
  | some s => if s = "" then none else pyInt s

/-- Converter `safe_float` as passed to `add_field_if_valid`. -/
def convFloat (s : String) : Option PValue := (safe_float (some s)).map PValue.f

/-- Converter `safe_int` as passed to `add_field_if_valid`. -/
def convInt (s : String) : Option PValue := (safe_int (some s)).map PValue.i

/-- Converter `str` as passed to `add_field_if_valid`: total. -/
def convStr (s : String) : Option PValue := some (PValue.s s)

/-- main.py `add_field_if_valid` (lines 59-66): add the converted field when
the raw value is present, non-empty and the converter succeeds; report
whether a field was added. -/
def add_field_if_valid (fields : List (String × PValue)) (name : String)
    (value : Option String) (conv : String → Option PValue) :
    List (String × PValue) × Bool :=
  match value with
  | none => (fields, false)
  | some s =>
    if s = "" then (fields, false)
    else
      match conv s with
      | none => (fields, false)
      | some pv => (fields ++ [(name, pv)], true)

/-- `if add_field_if_valid(...): fields_added = True` — add a field and
or the flag. -/
def addFV (a : List (String × PValue) × Bool) (name : String)
    (value : Option String) (conv : String → Option PValue) :
    List (String × PValue) × Bool :=
  let r := add_field_if_valid a.1 name value conv
  (r.1, a.2 || r.2)

/-- `if hasattr(msg, a) and v: point.field(name, str(v)); fields_added = True`. -/
def addStrIfTruthy (a : List (String × PValue) × Bool) (name : String)
    (v : Option String) : List (String × PValue) × Bool :=
  match v with
  | none => a
  | some s => if s ≠ "" then (a.1 ++ [(name, PValue.s s)], true) else a

/-! ### Point builders (main.py lines 69-232) -/

/-- `speed_mph = speed_knots * 1.15078` conversion factor. -/
def mphPerKnot : ℚ := 115078 / 100000

/-- `speed_kmh = speed_knots * 1.852` conversion factor. -/
def kmhPerKnot : ℚ := 1852 / 1000

/-- The field list of a `gps_position` point (main.py lines 78-101):
mandatory latitude/longitude, the optional `field_mappings` entries, the
speed conversions when speed-over-ground is truthy and convertible, and the
trailing `source_sentence`. -/
def position_fields (msg : GpsMsg) (lat lon : ℚ) (sentence_type : String) :
    List (String × PValue) :=
  let fs : List (String × PValue) := [("latitude", PValue.f lat), ("longitude", PValue.f lon)]
  let fs := (add_field_if_valid fs "altitude" msg.altitude convFloat).1
  let fs := (add_field_if_valid fs "fix_quality" msg.gps_qual convInt).1
  let fs := (add_field_if_valid fs "satellites" msg.num_sats convInt).1
  let fs := (add_field_if_valid fs "hdop" msg.horizontal_dil convFloat).1
  let fs := (add_field_if_valid fs "speed_knots" msg.spd_over_grnd convFloat).1
  let fs := (add_field_if_valid fs "course" msg.true_course convFloat).1
  let fs := (add_field_if_valid fs "gps_time" msg.timestamp convStr).1
  let fs :=
    if truthy msg.spd_over_grnd then
      match safe_float msg.spd_over_grnd with
      | some sp =>
        fs ++ [("speed_mph", PValue.f (sp * mphPerKnot)), ("speed_kmh", PValue.f (sp * kmhPerKnot))]
      | none => fs
    else fs
  fs ++ [("source_sentence", PValue.s sentence_type)]

/-- main.py `create_position_point` (lines 69-108): requires truthy and
float-convertible latitude and longitude, builds the `gps_position` point
and updates the `last_position` / `last_update` statistics. -/
def create_position_point (msg : GpsMsg) (timestamp : ℕ) (sentence_type : String)
    (st : Stats) : Option Point × Stats :=
  if truthy msg.latitude && truthy msg.longitude then
    match safe_float msg.latitude, safe_float msg.longitude with
    | some lat, some lon =>
      (some ⟨"gps_position", timestamp, position_fields msg lat lon sentence_type⟩,
       { st with last_position := some (lat, lon), last_update := some timestamp })
    | _, _ => (none, st)
  else (none, st)

/-- One satellite slot of `create_satellite_point` (main.py lines 130-149):
state is ((fields, fields_added), satellites_processed). -/
def gsv_slot (msg : GpsMsg) (p : (List (String × PValue) × Bool) × ℕ) (i : ℕ) :
    (List (String × PValue) × Bool) × ℕ :=
  if truthy (msg.sv_prn i) then
    match safe_int (msg.sv_prn i) with
    | some prn =>
      if prn ≠ 0 then
        let a1 : List (String × PValue) × Bool :=
          (p.1.1 ++ [(s!"sat_{prn}_prn", PValue.i prn)], p.1.2)
        let a2 := addFV a1 (s!"sat_{prn}_elevation") (msg.elevation i) convFloat
        let a3 := addFV a2 (s!"sat_{prn}_azimuth") (msg.azimuth i) convFloat
        let a4 := addFV a3 (s!"sat_{prn}_snr") (msg.snr i) convFloat
        ((a4.1, true), p.2 + 1)
      else p
    | none => p
  else p

/-- Fields and `fields_added` flag of a `satellite_data` point
(main.py lines 113-152, everything before the trailing `source_sentence`). -/
def satellite_fields (msg : GpsMsg) : List (String × PValue) × Bool :=
  let b0 : List (String × PValue) × Bool := ([], false)
  let b1 := addFV b0 "total_messages" msg.num_messages convInt
  let b2 := addFV b1 "message_number" msg.msg_num convInt
  let b3 := addFV b2 "satellites_in_view" msg.num_sv_in_view convInt
  let r := [1, 2, 3, 4].foldl (gsv_slot msg) (b3, 0)
  let fs :=
    if r.2 > 0 then r.1.1 ++ [("satellites_processed", PValue.i (r.2 : ℤ))] else r.1.1
  (fs, r.1.2)

/-- main.py `create_satellite_point` (lines 111-157): emit the point only if
`fields_added`; `source_sentence` is always appended first. -/
def create_satellite_point (msg : GpsMsg) (timestamp : ℕ) : Option Point :=
  let fb := satellite_fields msg
  if fb.2 then
    some ⟨"satellite_data", timestamp, fb.1 ++ [("source_sentence", PValue.s "$GPGSV")]⟩
  else none

/-- One active-satellite slot of `create_dop_point` (main.py lines 178-185):
state is ((fields, fields_added), active_satellites). -/
def gsa_slot (msg : GpsMsg) (p : (List (String × PValue) × Bool) × List ℤ) (i : ℕ) :
    (List (String × PValue) × Bool) × List ℤ :=
  if truthy (msg.sv_id i) then
    match safe_int (msg.sv_id i) with
    | some sid =>
      if sid ≠ 0 then
        ((p.1.1 ++ [(s!"active_sat_{i}", PValue.i sid)], true), p.2 ++ [sid])
      else p
    | none => p
  else p

/-- Fields and `fields_added` flag of a `gps_dop_data` point
(main.py lines 162-201, everything before the trailing `source_sentence`). -/
def dop_fields (msg : GpsMsg) : List (String × PValue) × Bool :=
  let a0 : List (String × PValue) × Bool := ([], false)
  let a1 := addStrIfTruthy a0 "mode" msg.mode
  let a2 :=
    if truthy msg.mode_fix_type then
      match safe_int msg.mode_fix_type with
      | some ft => if ft ≠ 0 then (a1.1 ++ [("fix_type", PValue.i ft)], true) else a1
      | none => a1
    else a1
  let r := [1, 2, 3, 4, 5, 6, 7, 8, 9, 10, 11, 12].foldl (gsa_slot msg) (a2, [])
  let a3 :=
    if r.2 ≠ [] then
      (r.1.1 ++
        [("active_satellites_count", PValue.i (r.2.length : ℤ)),
         ("active_satellites_list", PValue.s (String.intercalate "," (r.2.map toString)))],
       true)
    else r.1
  let a4 := addFV a3 "pdop" msg.pdop convFloat
  let a5 := addFV a4 "hdop" msg.hdop convFloat
  let a6 := addFV a5 "vdop" msg.vdop convFloat
  addStrIfTruthy a6 "system_id" msg.system_id

/-- main.py `create_dop_point` (lines 160-205). -/
def create_dop_point (msg : GpsMsg) (timestamp : ℕ) : Option Point :=
  let fb := dop_fields msg
  if fb.2 then
    some ⟨"gps_dop_data", timestamp, fb.1 ++ [("source_sentence", PValue.s "$GPGSA")]⟩
  else none

/-- Fields and `fields_added` flag of a `gps_navigation_data` point
(main.py lines 210-228). -/
def nav_fields (msg : GpsMsg) : List (String × PValue) × Bool :=
  let a0 : List (String × PValue) × Bool := ([], false)
  let a1 := addFV a0 "true_track_degrees" msg.true_track convFloat
  let a2 := addFV a1 "magnetic_track_degrees" msg.mag_track convFloat
  let a3 := addFV a2 "speed_knots" msg.spd_over_grnd_kts convFloat
  let a4 := addFV a3 "speed_kmh" msg.spd_over_grnd_kmph convFloat
  addStrIfTruthy a4 "faa_mode" msg.faa_mode

/-- main.py `create_navigation_point` (lines 208-232). -/
def create_navigation_point (msg : GpsMsg) (timestamp : ℕ) : Option Point :=
  let fb := nav_fields msg
  if fb.2 then
    some ⟨"gps_navigation_data", timestamp, fb.1 ++ [("source_sentence", PValue.s "$GPVTG")]⟩
  else none

/-! ### Per-sentence parsing (main.py lines 235-270)

The decode capability (`pynmea2.parse`) is an external collaborator and is
passed in as a function `d : String → Option GpsMsg`; `none` models a decode
exception, caught by the outer `try` (line 267).  The capture-time clock
(`datetime.utcnow`, line 239) is passed in as `c : ℕ → ℕ` together with a
call counter: the n-th consultation returns `c n`.  The result records the
produced point, the new clock counter, the new statistics, and the number of
decoder invocations performed (the source invokes the decoder exactly once
per call, at line 238, before routing). -/

/-- Result of one `parse_nmea_sentence` call with its effects made explicit. -/
structure SentenceResult where
  point : Option Point
  clk : ℕ
  stats : Stats
  decodeCalls : ℕ
deriving DecidableEq

/-- main.py `parse_nmea_sentence` (lines 235-270): decode, take the capture
time, route on the first six characters, and return the built point if any.
Every failure path returns no point; the decoder is invoked exactly once. -/
def parse_nmea_sentence (d : String → Option GpsMsg) (c : ℕ → ℕ)
    (sentence : String) (n : ℕ) (st : Stats) : SentenceResult :=
  match d sentence with
  | none => ⟨none, n, st, 1⟩
  | some msg =>
    let timestamp := c n
    let ty := skey sentence
    if ty = "$GPGGA" ∨ ty = "$GPRMC" then
      match create_position_point msg timestamp ty st with
      | (some p, st') => ⟨some p, n + 1, incParsed st', 1⟩
      | (none, st') => ⟨none, n + 1, st', 1⟩
    else if ty = "$GPGSV" then
      match create_satellite_point msg timestamp with
      | some p => ⟨some p, n + 1, incParsed st, 1⟩
      | none => ⟨none, n + 1, st, 1⟩
    else if ty = "$GPGSA" then
      match create_dop_point msg timestamp with
      | some p => ⟨some p, n + 1, incParsed st, 1⟩
      | none => ⟨none, n + 1, st, 1⟩
    else if ty = "$GPVTG" then
      match create_navigation_point msg timestamp with
      | some p => ⟨some p, n + 1, incParsed st, 1⟩
      | none => ⟨none, n + 1, st, 1⟩
    else ⟨none, n + 1, st, 1⟩

/-! ### Batch processing (main.py lines 273-300) -/

/-- `counts[ty] = counts.get(ty, 0) + 1` on an insertion-ordered tally. -/
def bump : List (String × ℕ) → String → List (String × ℕ)
  | [], k => [(k, 1)]
  | (k', cnt) :: rest, k =>
    if k' = k then (k', cnt + 1) :: rest else (k', cnt) :: bump rest k

/-- Accumulated result of `parse_nmea_sentences`, with the threaded clock
counter, statistics and decoder-invocation count made explicit. -/
structure BatchResult where
  points : List Point
  parsed : List String
  skipped : List String
  tally : List (String × ℕ)
  clk : ℕ
  stats : Stats
  decodeCalls : ℕ
deriving DecidableEq

/-- Loop body of `parse_nmea_sentences` (main.py lines 280-298): strip,
classify `invalid` / `embedded-newlines`, tally the type key, parse, and
record the sentence as parsed or skipped. -/
def step (d : String → Option GpsMsg) (c : ℕ → ℕ) (acc : BatchResult)
    (sen : String) : BatchResult :=
  let s' := stripStr sen
  if isCand s'.data = false then
    { acc with skipped := acc.skipped ++ ["invalid"] }
  else if s'.data.contains '\n' || s'.data.contains '\r' then
    { acc with skipped := acc.skipped ++ ["embedded-newlines"] }
  else
    let ty := skey s'
    let r := parse_nmea_sentence d c s' acc.clk acc.stats
    let acc2 :=
      { acc with
        tally := bump acc.tally ty, clk := r.clk, stats := r.stats,
        decodeCalls := acc.decodeCalls + r.decodeCalls }
    match r.point with
    | some p => { acc2 with points := acc2.points ++ [p], parsed := acc2.parsed ++ [ty] }
    | none => { acc2 with skipped := acc2.skipped ++ [ty] }

/-- Empty accumulator at clock counter `n` and statistics `st`. -/
def initAcc (n : ℕ) (st : Stats) : BatchResult := ⟨[], [], [], [], n, st, 0⟩

/-- main.py `parse_nmea_sentences` (lines 273-300), the `processBatch`
operation of the spec: fold the loop body over the candidate sentences. -/
def parse_nmea_sentences (d : String → Option GpsMsg) (c : ℕ → ℕ)
    (sentences : List String) (n : ℕ) (st : Stats) : BatchResult :=
  sentences.foldl (step d c) (initAcc n st)

/-! ### Sentence tokenizer (main.py lines 350, 358-359) -/

/-- The tokenizer: strip the decoded body, normalize `\r\n` and `\r` to
`\n`, split on `\n`, strip each line and drop empty lines. -/
def tokenize (body : String) : List String :=
  let nmea := trimChars body.data
  let normalized := replCR (replCRLF nmea)
  (((splitOnChar '\n' normalized).map trimChars).filter (fun l => l ≠ [])).map
    fun cs => (⟨cs⟩ : String)

/-- A tokenized line is a valid candidate only if (non-empty after trim and)
it begins with `$` (main.py line 282). -/
def validCandidates (body : String) : List String :=
  (tokenize body).filter fun s => isCand s.data

/-! ### Counting helpers for the batch-accounting properties -/

/-- Sum of the per-type tally counts. -/
def tallySum (t : List (String × ℕ)) : ℕ := (t.map fun kv => kv.2).sum

/-- A candidate sentence that reaches the parser: non-empty after strip,
`$`-prefixed, and free of embedded line terminators. -/
def isValidCandidate (s : String) : Bool :=
  let cs := trimChars s.data
  isCand cs && !(cs.contains '\n' || cs.contains '\r')

/-- Number of valid candidates in a batch. -/
def countValid (ss : List String) : ℕ := ss.countP isValidCandidate

/-- Number of candidates that are `$`-prefixed after strip (the measure used
by the claim, which ignores embedded line terminators). -/
def dollarCount (ss : List String) : ℕ := ss.countP fun s => isCand (trimChars s.data)

/-- Skip entries other than the synthetic `invalid` / `embedded-newlines`. -/
def typedCount (sk : List String) : ℕ :=
  sk.countP fun r => !(r == "invalid" || r == "embedded-newlines")

/-- Skip entries equal to `invalid`. -/
def invCount (sk : List String) : ℕ := sk.countP fun r => r == "invalid"

/-- Skip entries equal to `embedded-newlines`. -/
def embCount (sk : List String) : ℕ := sk.countP fun r => r == "embedded-newlines"

/-! ### Concrete instances used to settle individual claims -/

/-- A decoded GGA/RMC-style sentence with plain latitude and longitude. -/
def msgLatLon : GpsMsg :=
  { emptyMsg with latitude := some "10.0", longitude := some "20.0" }

/-- A decoder that always succeeds, returning `msgLatLon`. -/
def dAlways : String → Option GpsMsg := fun _ => some msgLatLon

/-- A decoder that always fails (every sentence raises a decode error). -/
def dNever : String → Option GpsMsg := fun _ => none

/-- A capture-time clock whose n-th consultation returns `n`. -/
def cIdent : ℕ → ℕ := fun k => k

/-- Fallback point for extracting a concrete point from an `Option`. -/
def dPoint : Point := ⟨"", 0, []⟩

/-- A two-sentence batch of position sentences, processed from clock 0. -/
def resC1 : BatchResult :=
  parse_nmea_sentences dAlways cIdent ["$GPGGA,1", "$GPGGA,2"] 0 st0

/-- A batch consisting of one unroutable (but decodable) sentence. -/
def resC4 : BatchResult := parse_nmea_sentences dAlways cIdent ["$GPZDA,1"] 0 st0

/-- A `$`-prefixed candidate with an embedded newline. -/
def batchC6 : List String := ["$GP\nGGA"]

/-- The embedded-newline batch processed with a failing decoder. -/
def resC6 : BatchResult := parse_nmea_sentences dNever cIdent batchC6 0 st0

/-! ### Claim C5 -/

/-- Claim C5: tokenizing the raw bodies `""`, `"\n\n"` and
`"notanmeastring"` each yields zero candidate sentences — the first two
tokenize to no lines at all, and `"notanmeastring"` tokenizes to a single
non-empty line that fails the `$`-prefix test and so is not a valid
candidate. -/
theorem C5_tokenize_zero_candidates :
    tokenize "" = [] ∧ tokenize "\n\n" = [] ∧
    tokenize "notanmeastring" = ["notanmeastring"] ∧
    validCandidates "" = [] ∧ validCandidates "\n\n" = [] ∧
    validCandidates "notanmeastring" = [] :=
  ⟨rfl, rfl, rfl, rfl, rfl, rfl⟩

/-! ### Claim C1, counterexample -/

/-- Claim C1 is false on the code: in a batch of two position sentences the
capture-time clock (threaded as `cIdent` with counter starting at 0) is
consulted twice, not once, and the two points carry timestamps 0 and 1 —
not the same timestamp.  `utcnow()` is called inside `parse_nmea_sentence`
(main.py line 239), once per decoded sentence. -/
theorem C1_counterexample :
    resC1.points.map Point.time = [0, 1] ∧ resC1.clk = 2 ∧
    ¬ (resC1.clk = 1 ∧ ∀ p ∈ resC1.points, ∀ q ∈ resC1.points, p.time = q.time) := by
  decide

/-! ### Claim C4, counterexample -/

/-- Claim C4 is false on the code: for the unroutable sentence `$GPZDA,1`
the decode capability IS invoked (exactly once, at main.py line 238, before
routing); the sentence is still classified skipped under its type key. -/
theorem C4_counterexample :
    resC4.skipped = ["$GPZDA"] ∧ resC4.decodeCalls = 1 ∧ resC4.decodeCalls ≠ 0 := by
  decide

/-! ### Claim C6, counterexample -/

/-- Claim C6 is false on the code: for the batch `["$GP\nGGA"]` the single
candidate is `$`-prefixed after strip, yet it is classified
`embedded-newlines` and never tallied, so `len(parsedTypes)` plus the
typed skip entries is 0 while the number of `$`-prefixed candidates is 1. -/
theorem C6_counterexample :
    resC6.parsed.length + typedCount resC6.skipped = 0 ∧ dollarCount batchC6 = 1 ∧
    resC6.parsed.length + typedCount resC6.skipped ≠ dollarCount batchC6 := by
  decide

/-! ### Claim C7 -/

/-- Claim C7: the numeric conversion helpers never raise (they are total
functions into `Option`): they return the absence marker `none` exactly on a
missing value, the empty string, or an unconvertible string, return the
converted number on every convertible string, and a converted zero is a
present value, not absence. -/
theorem C7_safe_conversion :
    (∀ v, safe_float v = none ↔ (v = none ∨ ∃ s, v = some s ∧ pyFloat s = none)) ∧
    (∀ s q, pyFloat s = some q → safe_float (some s) = some q) ∧
    (∀ v, safe_int v = none ↔ (v = none ∨ ∃ s, v = some s ∧ pyInt s = none)) ∧
    (∀ s z, pyInt s = some z → safe_int (some s) = some z) ∧
    safe_float (some "0.0") = some 0 ∧ safe_int (some "0") = some 0 := by
  refine ⟨?_, ?_, ?_, ?_, by decide, by decide⟩
  · intro v
    cases v with
    | none => simp [safe_float]
    | some s =>
      by_cases hs : s = ""
      · subst hs
        simpa [safe_float] using (by decide : pyFloat "" = (none : Option ℚ))
      · simp [safe_float, hs]
  · intro s q h
    by_cases hs : s = ""
    · subst hs
      rw [(by decide : pyFloat "" = (none : Option ℚ))] at h
      cases h
    · simp [safe_float, hs, h]
  · intro v
    cases v with
    | none => simp [safe_int]
    | some s =>
      by_cases hs : s = ""
      · subst hs
        simpa [safe_int] using (by decide : pyInt "" = (none : Option ℤ))
      · simp [safe_int, hs]
  · intro s z h
    by_cases hs : s = ""
    · subst hs
      rw [(by decide : pyInt "" = (none : Option ℤ))] at h
      cases h
    · simp [safe_int, hs, h]

/-- Witness for C7 at concrete convertible inputs. -/
theorem C7_safe_conversion_witness :
    pyFloat "1.5" = some (mkRat 3 2) ∧ safe_float (some "1.5") = some (mkRat 3 2) ∧
    pyInt "-7" = some (-7) ∧ safe_int (some "-7") = some (-7) :=
  ⟨by decide, C7_safe_conversion.2.1 "1.5" (mkRat 3 2) (by decide), by decide,
   C7_safe_conversion.2.2.2.1 "-7" (-7) (by decide)⟩

/-! ### Builder helper lemmas -/

/-- If the raw value is falsy (absent or empty), `safe_float` yields `none`. -/
theorem truthy_false_safe_float (v : Option String) (h : truthy v = false) :
    safe_float v = none := by
  cases v with
  | none => rfl
  | some s =>
    have hs : s = "" := by simpa [truthy] using h
    simp [safe_float, hs]

/-- `safe_float` succeeds exactly on a present, float-convertible string. -/
theorem safe_float_isSome (v : Option String) :
    (safe_float v).isSome ↔ ∃ s, v = some s ∧ (pyFloat s).isSome := by
  cases v with
  | none => simp [safe_float]
  | some s =>
    by_cases hs : s = ""
    · subst hs
      simpa [safe_float] using (by decide : pyFloat "" = (none : Option ℚ))
    · simp [safe_float, hs]

/-- `add_field_if_valid` preserves already-present fields. -/
theorem mem_add_field {x : String × PValue} (fs : List (String × PValue))
    (n : String) (v : Option String) (conv : String → Option PValue)
    (hx : x ∈ fs) : x ∈ (add_field_if_valid fs n v conv).1 := by
  unfold add_field_if_valid
  cases v with
  | none => exact hx
  | some s =>
    by_cases hs : s = ""
    · simpa [hs] using hx
    · cases hc : conv s <;> simp [hs, hc]
      · exact hx
      · exact Or.inl hx

/-- `add_field_if_valid` only ever appends. -/
theorem add_field_extends (fs : List (String × PValue)) (n : String)
    (v : Option String) (conv : String → Option PValue) :
    ∃ l, (add_field_if_valid fs n v conv).1 = fs ++ l := by
  unfold add_field_if_valid
  cases v with
  | none => exact ⟨[], by simp⟩
  | some s =>
    by_cases hs : s = ""
    · exact ⟨[], by simp [hs]⟩
    · cases hc : conv s with
      | none => exact ⟨[], by simp [hs, hc]⟩
      | some pv => exact ⟨[(n, pv)], by simp [hs, hc]⟩

/-- A successful `add_field_if_valid` appends exactly the converted field. -/
theorem add_field_adds (fs : List (String × PValue)) (n : String) (s : String)
    (pv : PValue) (conv : String → Option PValue) (hs : s ≠ "")
    (hc : conv s = some pv) :
    (add_field_if_valid fs n (some s) conv).1 = fs ++ [(n, pv)] := by
  simp [add_field_if_valid, hs, hc]

/-- A returned position point is exactly the `gps_position` point built from
the converted latitude/longitude. -/
theorem create_position_eq_some (msg : GpsMsg) (t : ℕ) (ty : String) (st : Stats)
    (p : Point) (hp : (create_position_point msg t ty st).1 = some p) :
    ∃ lat lon, safe_float msg.latitude = some lat ∧
      safe_float msg.longitude = some lon ∧
      p = ⟨"gps_position", t, position_fields msg lat lon ty⟩ := by
  unfold create_position_point at hp
  by_cases h : truthy msg.latitude && truthy msg.longitude
  · rw [if_pos h] at hp
    cases hl : safe_float msg.latitude with
    | none => simp [hl] at hp
    | some lat =>
      cases hlo : safe_float msg.longitude with
      | none => simp [hl, hlo] at hp
      | some lon =>
        refine ⟨lat, lon, rfl, rfl, ?_⟩
        simp [hl, hlo] at hp
        exact hp.symm
  · rw [if_neg h] at hp
    cases hp

/-- The position builder succeeds exactly when both coordinates convert. -/
theorem create_position_isSome (msg : GpsMsg) (t : ℕ) (ty : String) (st : Stats) :
    ((create_position_point msg t ty st).1).isSome ↔
      (safe_float msg.latitude).isSome ∧ (safe_float msg.longitude).isSome := by
  unfold create_position_point
  by_cases h : truthy msg.latitude && truthy msg.longitude
  · rw [if_pos h]
    cases hl : safe_float msg.latitude <;> cases hlo : safe_float msg.longitude <;>
      simp [hl, hlo]
  · rw [if_neg h]
    have h' : truthy msg.latitude = false ∨ truthy msg.longitude = false := by
      rcases Bool.eq_false_or_eq_true (truthy msg.latitude) with h1 | h1
      · rcases Bool.eq_false_or_eq_true (truthy msg.longitude) with h2 | h2
        · exact absurd (by rw [h1, h2]; rfl) h
        · exact Or.inr h2
      · exact Or.inl h1
    rcases h' with h' | h' <;> simp [truthy_false_safe_float _ h']

/-- The `speed_knots`, `speed_mph` and `speed_kmh` fields produced when
speed-over-ground is present and convertible. -/
theorem position_fields_speed (msg : GpsMsg) (lat lon : ℚ) (ty : String)
    (s : String) (v : ℚ) (hspd : msg.spd_over_grnd = some s)
    (hsf : safe_float (some s) = some v) :
    ("speed_knots", PValue.f v) ∈ position_fields msg lat lon ty ∧
    ("speed_mph", PValue.f (v * mphPerKnot)) ∈ position_fields msg lat lon ty ∧
    ("speed_kmh", PValue.f (v * kmhPerKnot)) ∈ position_fields msg lat lon ty := by
  have hs : s ≠ "" := by
    intro h
    subst h
    simp [safe_float] at hsf
  have hconv : convFloat s = some (PValue.f v) := by simp [convFloat, hsf]
  have ht : truthy (some s) = true := by simp [truthy, hs]
  simp only [position_fields, hspd, ht, if_true,
    add_field_adds _ "speed_knots" s (PValue.f v) convFloat hs hconv, hsf]
  obtain ⟨l1, h1⟩ := add_field_extends
    ((add_field_if_valid (add_field_if_valid (add_field_if_valid
      (add_field_if_valid [("latitude", PValue.f lat), ("longitude", PValue.f lon)]
        "altitude" msg.altitude convFloat).1
      "fix_quality" msg.gps_qual convInt).1
      "satellites" msg.num_sats convInt).1
      "hdop" msg.horizontal_dil convFloat).1 ++ [("speed_knots", PValue.f v)])
    "course" msg.true_course convFloat
  rw [h1]
  obtain ⟨l2, h2⟩ := add_field_extends _ "gps_time" msg.timestamp convStr
  rw [h2]
  refine ⟨?_, ?_, ?_⟩ <;> simp [List.mem_append]

/-- Claim C2: whenever the decoded speed-over-ground field is present and
float-convertible (zero included), any position point returned by the
builder carries `speed_knots` together with `speed_mph = speed_knots *
1.15078` and `speed_kmh = speed_knots * 1.852`. -/
theorem C2_position_speed (msg : GpsMsg) (t : ℕ) (ty : String) (st : Stats)
    (v : ℚ) (p : Point) (hsf : safe_float msg.spd_over_grnd = some v)
    (hp : (create_position_point msg t ty st).1 = some p) :
    ("speed_knots", PValue.f v) ∈ p.fields ∧
    ("speed_mph", PValue.f (v * mphPerKnot)) ∈ p.fields ∧
    ("speed_kmh", PValue.f (v * kmhPerKnot)) ∈ p.fields := by
  obtain ⟨lat, lon, _, _, hpe⟩ := create_position_eq_some msg t ty st p hp
  cases hv : msg.spd_over_grnd with
  | none => rw [hv] at hsf; cases hsf
  | some s =>
    rw [hv] at hsf
    subst hpe
    exact position_fields_speed msg lat lon ty s v hv hsf

/-- A GGA-style sentence with zero speed-over-ground. -/
def msgSpd0 : GpsMsg :=
  { emptyMsg with
    latitude := some "1.0", longitude := some "2.0", spd_over_grnd := some "0.0" }

/-- The point the position builder produces from `msgSpd0`. -/
def ptC2 : Point := ((create_position_point msgSpd0 0 "$GPGGA" st0).1).getD dPoint

/-- Witness for C2: `spd_over_grnd = "0.0"` converts to the present value 0
and the produced point carries `speed_knots`, `speed_mph`, `speed_kmh`. -/
theorem C2_position_speed_witness :
    safe_float msgSpd0.spd_over_grnd = some 0 ∧
    (create_position_point msgSpd0 0 "$GPGGA" st0).1 = some ptC2 ∧
    ("speed_knots", PValue.f 0) ∈ ptC2.fields ∧
    ("speed_mph", PValue.f (0 * mphPerKnot)) ∈ ptC2.fields ∧
    ("speed_kmh", PValue.f (0 * kmhPerKnot)) ∈ ptC2.fields := by
  have h1 : safe_float msgSpd0.spd_over_grnd = some 0 := by decide
  have h2 : (create_position_point msgSpd0 0 "$GPGGA" st0).1 = some ptC2 := rfl
  have h3 := C2_position_speed msgSpd0 0 "$GPGGA" st0 0 ptC2 h1 h2
  exact ⟨h1, h2, h3.1, h3.2.1, h3.2.2⟩

/-- A GGA-style sentence positioned exactly on the equator / prime meridian. -/
def msgZero : GpsMsg :=
  { emptyMsg with latitude := some "0.0", longitude := some "0.0" }

/-- Claim C3: the position builder returns a point exactly when both
latitude and longitude are present and float-convertible; in particular a
sentence whose latitude and longitude are both the present, convertible
string `"0.0"` still yields a point. -/
theorem C3_position_iff :
    (∀ msg t ty st, ((create_position_point msg t ty st).1).isSome ↔
      ((∃ s, msg.latitude = some s ∧ (pyFloat s).isSome) ∧
       (∃ s, msg.longitude = some s ∧ (pyFloat s).isSome))) ∧
    ((create_position_point msgZero 0 "$GPGGA" st0).1).isSome = true := by
  constructor
  · intro msg t ty st
    rw [create_position_isSome, safe_float_isSome, safe_float_isSome]
  · decide

/-! ### Flag / fields invariants for the GSV, GSA and VTG builders -/

/-- The `fields_added` flag of an accumulator tracks non-emptiness of its
field list. -/
def FlagInv (a : List (String × PValue) × Bool) : Prop :=
  a.2 = true ↔ a.1 ≠ []

/-- `add_field_if_valid` either leaves the state alone or appends one field. -/
theorem add_field_cases (fs : List (String × PValue)) (n : String)
    (v : Option String) (conv : String → Option PValue) :
    add_field_if_valid fs n v conv = (fs, false) ∨
    ∃ x, add_field_if_valid fs n v conv = (fs ++ [x], true) := by
  unfold add_field_if_valid
  cases v with
  | none => exact Or.inl rfl
  | some s =>
    by_cases hs : s = ""
    · exact Or.inl (by simp [hs])
    · cases hc : conv s with
      | none => exact Or.inl (by simp [hs, hc])
      | some pv => exact Or.inr ⟨(n, pv), by simp [hs, hc]⟩

/-- `addFV` preserves the flag invariant. -/
theorem addFV_flagInv (a : List (String × PValue) × Bool) (n : String)
    (v : Option String) (conv : String → Option PValue) (h : FlagInv a) :
    FlagInv (addFV a n v conv) := by
  unfold addFV
  rcases add_field_cases a.1 n v conv with hc | ⟨x, hc⟩
  · simpa [hc, FlagInv] using h
  · simp only [hc, FlagInv, Bool.or_true]
    constructor
    · intro _ he
      simp at he
    · intro _
      trivial

/-- `addFV` only appends fields. -/
theorem addFV_extends (a : List (String × PValue) × Bool) (n : String)
    (v : Option String) (conv : String → Option PValue) :
    ∃ l, (addFV a n v conv).1 = a.1 ++ l := by
  unfold addFV
  obtain ⟨l, hl⟩ := add_field_extends a.1 n v conv
  exact ⟨l, by simp [hl]⟩

/-- `addStrIfTruthy` preserves the flag invariant. -/
theorem addStrIfTruthy_flagInv (a : List (String × PValue) × Bool) (n : String)
    (v : Option String) (h : FlagInv a) : FlagInv (addStrIfTruthy a n v) := by
  unfold addStrIfTruthy
  cases v with
  | none => exact h
  | some s =>
    by_cases hs : s = ""
    · simpa [hs] using h
    · simp [hs, FlagInv]

/-- Invariant for the GSV satellite-slot loop: flag invariant plus
"no flag implies no slot processed". -/
def GsvInv (p : (List (String × PValue) × Bool) × ℕ) : Prop :=
  FlagInv p.1 ∧ (p.1.2 = false → p.2 = 0)

/-- One GSV slot preserves the loop invariant. -/
theorem gsv_slot_inv (msg : GpsMsg) (i : ℕ)
    (p : (List (String × PValue) × Bool) × ℕ) (h : GsvInv p) :
    GsvInv (gsv_slot msg p i) := by
  unfold gsv_slot
  by_cases ht : truthy (msg.sv_prn i) = true
  · rw [if_pos ht]
    cases hi : safe_int (msg.sv_prn i) with
    | none => exact h
    | some prn =>
      dsimp only
      by_cases hp : prn ≠ 0
      · rw [if_pos hp]
        obtain ⟨l4, h4⟩ := addFV_extends
          (addFV (addFV (p.1.1 ++ [(s!"sat_{prn}_prn", PValue.i prn)], p.1.2)
            (s!"sat_{prn}_elevation") (msg.elevation i) convFloat)
            (s!"sat_{prn}_azimuth") (msg.azimuth i) convFloat)
          (s!"sat_{prn}_snr") (msg.snr i) convFloat
        obtain ⟨l3, h3⟩ := addFV_extends
          (addFV (p.1.1 ++ [(s!"sat_{prn}_prn", PValue.i prn)], p.1.2)
            (s!"sat_{prn}_elevation") (msg.elevation i) convFloat)
          (s!"sat_{prn}_azimuth") (msg.azimuth i) convFloat
        obtain ⟨l2, h2⟩ := addFV_extends
          (p.1.1 ++ [(s!"sat_{prn}_prn", PValue.i prn)], p.1.2)
          (s!"sat_{prn}_elevation") (msg.elevation i) convFloat
        refine ⟨?_, fun hfalse => by cases hfalse⟩
        simp only [FlagInv]
        constructor
        · intro _
          rw [h4, h3, h2]
          intro he
          simp at he
        · intro _
          trivial
      · rw [if_neg hp]
        exact h
  · rw [if_neg ht]
    exact h

/-- The trailing `satellites_processed` step keeps flag and fields aligned. -/
theorem gsv_final (r : (List (String × PValue) × Bool) × ℕ) (hr : GsvInv r) :
    FlagInv
      (if r.2 > 0 then r.1.1 ++ [("satellites_processed", PValue.i (r.2 : ℤ))] else r.1.1,
       r.1.2) := by
  by_cases hc : r.2 > 0
  · have hflag : r.1.2 = true := by
      rcases Bool.eq_false_or_eq_true r.1.2 with hf | hf
      · exact hf
      · exact absurd (hr.2 hf) (by omega)
    simp [hc, hflag, FlagInv]
  · simpa [hc, FlagInv] using hr.1

/-- The satellite builder flag is set exactly when a field was added. -/
theorem satellite_fields_flagInv (msg : GpsMsg) : FlagInv (satellite_fields msg) := by
  have h0 : FlagInv ([], false) := by simp [FlagInv]
  have h1 := addFV_flagInv _ "total_messages" msg.num_messages convInt h0
  have h2 := addFV_flagInv _ "message_number" msg.msg_num convInt h1
  have h3 := addFV_flagInv _ "satellites_in_view" msg.num_sv_in_view convInt h2
  have hr : GsvInv ([1, 2, 3, 4].foldl (gsv_slot msg)
      (addFV (addFV (addFV ([], false) "total_messages" msg.num_messages convInt)
        "message_number" msg.msg_num convInt)
        "satellites_in_view" msg.num_sv_in_view convInt, 0)) := by
    simp only [List.foldl_cons, List.foldl_nil]
    exact gsv_slot_inv msg 4 _ (gsv_slot_inv msg 3 _ (gsv_slot_inv msg 2 _
      (gsv_slot_inv msg 1 _ ⟨h3, fun _ => rfl⟩)))
  exact gsv_final _ hr

/-- One GSA slot preserves the flag invariant of its field component. -/
theorem gsa_slot_flagInv (msg : GpsMsg) (i : ℕ)
    (p : (List (String × PValue) × Bool) × List ℤ) (h : FlagInv p.1) :
    FlagInv (gsa_slot msg p i).1 := by
  unfold gsa_slot
  by_cases ht : truthy (msg.sv_id i) = true
  · rw [if_pos ht]
    cases hi : safe_int (msg.sv_id i) with
    | none => exact h
    | some sid =>
      dsimp only
      by_cases hs : sid ≠ 0
      · rw [if_pos hs]
        simp only [FlagInv]
        constructor
        · intro _ he
          simp at he
        · intro _
          trivial
      · rw [if_neg hs]
        exact h
  · rw [if_neg ht]
    exact h

/-- The active-satellite summary step preserves the flag invariant. -/
theorem gsa_summary_flagInv (r : (List (String × PValue) × Bool) × List ℤ)
    (h : FlagInv r.1) :
    FlagInv
      (if r.2 ≠ [] then
        (r.1.1 ++
          [("active_satellites_count", PValue.i (r.2.length : ℤ)),
           ("active_satellites_list",
             PValue.s (String.intercalate "," (r.2.map toString)))],
         true)
      else r.1) := by
  by_cases hc : r.2 ≠ []
  · rw [if_pos hc]
    simp only [FlagInv]
    constructor
    · intro _ he
      simp at he
    · intro _
      trivial
  · rw [if_neg hc]
    exact h

/-- The DOP builder flag is set exactly when a field was added. -/
theorem dop_fields_flagInv (msg : GpsMsg) : FlagInv (dop_fields msg) := by
  have h0 : FlagInv ([], false) := by simp [FlagInv]
  have h1 := addStrIfTruthy_flagInv ([], false) "mode" msg.mode h0
  have h2 : FlagInv
      (if truthy msg.mode_fix_type then
        match safe_int msg.mode_fix_type with
        | some ft =>
          if ft ≠ 0 then ((addStrIfTruthy ([], false) "mode" msg.mode).1 ++
            [("fix_type", PValue.i ft)], true)
          else addStrIfTruthy ([], false) "mode" msg.mode
        | none => addStrIfTruthy ([], false) "mode" msg.mode
      else addStrIfTruthy ([], false) "mode" msg.mode) := by
    by_cases ht : truthy msg.mode_fix_type = true
    · rw [if_pos ht]
      cases hi : safe_int msg.mode_fix_type with
      | none => exact h1
      | some ft =>
        dsimp only
        by_cases hf : ft ≠ 0
        · rw [if_pos hf]
          simp only [FlagInv]
          constructor
          · intro _ he
            simp at he
          · intro _
            trivial
        · rw [if_neg hf]
          exact h1
    · rw [if_neg ht]
      exact h1
  have hr : FlagInv ([1, 2, 3, 4, 5, 6, 7, 8, 9, 10, 11, 12].foldl (gsa_slot msg)
      ((if truthy msg.mode_fix_type then
        match safe_int msg.mode_fix_type with
        | some ft =>
          if ft ≠ 0 then ((addStrIfTruthy ([], false) "mode" msg.mode).1 ++
            [("fix_type", PValue.i ft)], true)
          else addStrIfTruthy ([], false) "mode" msg.mode
        | none => addStrIfTruthy ([], false) "mode" msg.mode
      else addStrIfTruthy ([], false) "mode" msg.mode), [])).1 := by
    simp only [List.foldl_cons, List.foldl_nil]
    exact gsa_slot_flagInv msg 12 _ (gsa_slot_flagInv msg 11 _
      (gsa_slot_flagInv msg 10 _ (gsa_slot_flagInv msg 9 _
      (gsa_slot_flagInv msg 8 _ (gsa_slot_flagInv msg 7 _
      (gsa_slot_flagInv msg 6 _ (gsa_slot_flagInv msg 5 _
      (gsa_slot_flagInv msg 4 _ (gsa_slot_flagInv msg 3 _
      (gsa_slot_flagInv msg 2 _ (gsa_slot_flagInv msg 1 _ h2)))))))))))
  have hsum := gsa_summary_flagInv _ hr
  have h4 := addFV_flagInv _ "pdop" msg.pdop convFloat hsum
  have h5 := addFV_flagInv _ "hdop" msg.hdop convFloat h4
  have h6 := addFV_flagInv _ "vdop" msg.vdop convFloat h5
  have h7 := addStrIfTruthy_flagInv _ "system_id" msg.system_id h6
  exact h7

/-- The navigation builder flag is set exactly when a field was added. -/
theorem nav_fields_flagInv (msg : GpsMsg) : FlagInv (nav_fields msg) := by
  have h0 : FlagInv ([], false) := by simp [FlagInv]
  have h1 := addFV_flagInv _ "true_track_degrees" msg.true_track convFloat h0
  have h2 := addFV_flagInv _ "magnetic_track_degrees" msg.mag_track convFloat h1
  have h3 := addFV_flagInv _ "speed_knots" msg.spd_over_grnd_kts convFloat h2
  have h4 := addFV_flagInv _ "speed_kmh" msg.spd_over_grnd_kmph convFloat h3
  exact addStrIfTruthy_flagInv _ "faa_mode" msg.faa_mode h4

/-! ### Claim C8 -/

/-- A decoded GSV sentence with valid basic fields but all slots empty. -/
def msgGsvBasic : GpsMsg :=
  { emptyMsg with
    num_messages := some "3", msg_num := some "1", num_sv_in_view := some "04" }

/-- Claim C8: each of the GSV, GSA and VTG builders emits a point exactly
when at least one field beyond the always-appended `source_sentence` was
successfully added (the emitted field list is that list plus
`source_sentence`); a GSV sentence with only valid basic fields still
yields a point, and a GSA sentence with nothing convertible yields none. -/
theorem C8_minimal_point :
    (forall msg t, (create_satellite_point msg t).isSome = true ↔ (satellite_fields msg).1 ≠ []) ∧
    (forall msg t, (create_dop_point msg t).isSome = true ↔ (dop_fields msg).1 ≠ []) ∧
    (forall msg t, (create_navigation_point msg t).isSome = true ↔ (nav_fields msg).1 ≠ []) ∧
    (create_satellite_point msgGsvBasic 0).isSome = true ∧
    create_dop_point emptyMsg 0 = none := by
  refine ⟨?_, ?_, ?_, by decide, by decide⟩
  · intro msg t
    have hf := satellite_fields_flagInv msg
    unfold create_satellite_point
    by_cases h : (satellite_fields msg).2 = true <;>
      simp [h, FlagInv] at hf ⊢
    · exact hf
    · exact hf
  · intro msg t
    have hf := dop_fields_flagInv msg
    unfold create_dop_point
    by_cases h : (dop_fields msg).2 = true <;>
      simp [h, FlagInv] at hf ⊢
    · exact hf
    · exact hf
  · intro msg t
    have hf := nav_fields_flagInv msg
    unfold create_navigation_point
    by_cases h : (nav_fields msg).2 = true <;>
      simp [h, FlagInv] at hf ⊢
    · exact hf
    · exact hf

/-! ### Per-sentence characterization lemmas -/

/-- `incParsed` does not touch the last-position fields. -/
theorem incParsed_last (st : Stats) :
    (incParsed st).last_position = st.last_position ∧
    (incParsed st).last_update = st.last_update :=
  ⟨rfl, rfl⟩

/-- A position point carries the builder timestamp and name. -/
theorem create_position_time (msg : GpsMsg) (t : ℕ) (ty : String) (st : Stats)
    (p : Point) (hp : (create_position_point msg t ty st).1 = some p) :
    p.time = t ∧ p.name = "gps_position" := by
  obtain ⟨lat, lon, _, _, hpe⟩ := create_position_eq_some msg t ty st p hp
  subst hpe
  exact ⟨rfl, rfl⟩

/-- A failed position build leaves the statistics untouched. -/
theorem create_position_none_frame (msg : GpsMsg) (t : ℕ) (ty : String)
    (st : Stats) (h : (create_position_point msg t ty st).1 = none) :
    (create_position_point msg t ty st).2 = st := by
  unfold create_position_point at h ⊢
  by_cases hg : truthy msg.latitude && truthy msg.longitude
  · rw [if_pos hg] at h ⊢
    cases hl : safe_float msg.latitude with
    | none => simp [hl]
    | some lat =>
      cases hlo : safe_float msg.longitude with
      | none => simp [hl, hlo]
      | some lon => simp [hl, hlo] at h
  · rw [if_neg hg]

/-- A satellite point carries the builder timestamp and name. -/
theorem create_satellite_time (msg : GpsMsg) (t : ℕ) (p : Point)
    (hp : create_satellite_point msg t = some p) :
    p.time = t ∧ p.name = "satellite_data" := by
  unfold create_satellite_point at hp
  by_cases h : (satellite_fields msg).2 = true
  · simp only [h, if_true, Option.some.injEq] at hp
    rw [← hp]
    exact ⟨rfl, rfl⟩
  · simp [h] at hp

/-- A DOP point carries the builder timestamp and name. -/
theorem create_dop_time (msg : GpsMsg) (t : ℕ) (p : Point)
    (hp : create_dop_point msg t = some p) :
    p.time = t ∧ p.name = "gps_dop_data" := by
  unfold create_dop_point at hp
  by_cases h : (dop_fields msg).2 = true
  · simp only [h, if_true, Option.some.injEq] at hp
    rw [← hp]
    exact ⟨rfl, rfl⟩
  · simp [h] at hp

/-- A navigation point carries the builder timestamp and name. -/
theorem create_navigation_time (msg : GpsMsg) (t : ℕ) (p : Point)
    (hp : create_navigation_point msg t = some p) :
    p.time = t ∧ p.name = "gps_navigation_data" := by
  unfold create_navigation_point at hp
  by_cases h : (nav_fields msg).2 = true
  · simp only [h, if_true, Option.some.injEq] at hp
    rw [← hp]
    exact ⟨rfl, rfl⟩
  · simp [h] at hp

/-- The decoder is invoked exactly once per `parse_nmea_sentence` call
(main.py line 238, before routing). -/
theorem parse_decodeCalls (d : String → Option GpsMsg) (c : ℕ → ℕ) (s : String)
    (n : ℕ) (st : Stats) : (parse_nmea_sentence d c s n st).decodeCalls = 1 := by
  unfold parse_nmea_sentence
  cases d s with
  | none => rfl
  | some msg =>
    dsimp only
    repeat' split
    all_goals rfl

/-- On a decode failure the per-sentence step consults no clock, changes no
statistics, and produces no point. -/
theorem parse_decode_failure (d : String → Option GpsMsg) (c : ℕ → ℕ)
    (s : String) (n : ℕ) (st : Stats) (hd : d s = none) :
    parse_nmea_sentence d c s n st = ⟨none, n, st, 1⟩ := by
  unfold parse_nmea_sentence
  rw [hd]

/-- On a decode success the clock is consulted exactly once: the counter
advances by one, whatever the routing outcome. -/
theorem parse_decode_success_clk (d : String → Option GpsMsg) (c : ℕ → ℕ)
    (s : String) (n : ℕ) (st : Stats) (msg : GpsMsg) (hd : d s = some msg) :
    (parse_nmea_sentence d c s n st).clk = n + 1 := by
  unfold parse_nmea_sentence
  rw [hd]
  dsimp only
  repeat' split
  all_goals rfl

/-- Every point returned by `parse_nmea_sentence` is stamped with the clock
value consulted for its own sentence. -/
theorem parse_point_time (d : String → Option GpsMsg) (c : ℕ → ℕ) (s : String)
    (n : ℕ) (st : Stats) (p : Point)
    (hp : (parse_nmea_sentence d c s n st).point = some p) : p.time = c n := by
  unfold parse_nmea_sentence at hp
  cases hd : d s with
  | none => rw [hd] at hp; cases hp
  | some msg =>
    rw [hd] at hp
    dsimp only at hp
    by_cases h1 : skey s = "$GPGGA" ∨ skey s = "$GPRMC"
    · rw [if_pos h1] at hp
      cases hcp : create_position_point msg (c n) (skey s) st with
      | mk op st2 =>
        rw [hcp] at hp
        cases op with
        | some q =>
          dsimp only at hp
          have hq : q = p := by injection hp
          have := create_position_time msg (c n) (skey s) st q (by rw [hcp])
          rw [← hq]
          exact this.1
        | none => cases hp
    · rw [if_neg h1] at hp
      by_cases h2 : skey s = "$GPGSV"
      · rw [if_pos h2] at hp
        cases hsp : create_satellite_point msg (c n) with
        | none => rw [hsp] at hp; cases hp
        | some q =>
          rw [hsp] at hp
          have hq : q = p := by injection hp
          rw [← hq]
          exact (create_satellite_time msg (c n) q hsp).1
      · rw [if_neg h2] at hp
        by_cases h3 : skey s = "$GPGSA"
        · rw [if_pos h3] at hp
          cases hsp : create_dop_point msg (c n) with
          | none => rw [hsp] at hp; cases hp
          | some q =>
            rw [hsp] at hp
            have hq : q = p := by injection hp
            rw [← hq]
            exact (create_dop_time msg (c n) q hsp).1
        · rw [if_neg h3] at hp
          by_cases h4 : skey s = "$GPVTG"
          · rw [if_pos h4] at hp
            cases hsp : create_navigation_point msg (c n) with
            | none => rw [hsp] at hp; cases hp
            | some q =>
              rw [hsp] at hp
              have hq : q = p := by injection hp
              rw [← hq]
              exact (create_navigation_time msg (c n) q hsp).1
          · rw [if_neg h4] at hp
            cases hp

/-- A sentence whose type key is unroutable yields no point, while the
decoder is still invoked once. -/
theorem parse_unroutable (d : String → Option GpsMsg) (c : ℕ → ℕ) (s : String)
    (n : ℕ) (st : Stats)
    (h : skey s ∉ (["$GPGGA", "$GPRMC", "$GPGSV", "$GPGSA", "$GPVTG"] : List String)) :
    (parse_nmea_sentence d c s n st).point = none ∧
    (parse_nmea_sentence d c s n st).stats = st ∧
    (parse_nmea_sentence d c s n st).decodeCalls = 1 := by
  have h1 : ¬(skey s = "$GPGGA" ∨ skey s = "$GPRMC") := by
    intro hc
    rcases hc with hc | hc <;> simp [hc] at h
  have h2 : ¬skey s = "$GPGSV" := by intro hc; simp [hc] at h
  have h3 : ¬skey s = "$GPGSA" := by intro hc; simp [hc] at h
  have h4 : ¬skey s = "$GPVTG" := by intro hc; simp [hc] at h
  unfold parse_nmea_sentence
  cases d s with
  | none => exact ⟨rfl, rfl, rfl⟩
  | some msg =>
    dsimp only
    rw [if_neg h1, if_neg h2, if_neg h3, if_neg h4]
    exact ⟨rfl, rfl, rfl⟩

/-- Either the per-sentence step preserves the last-position statistics, or
it returns a `gps_position` point. -/
theorem parse_frame (d : String → Option GpsMsg) (c : ℕ → ℕ) (s : String)
    (n : ℕ) (st : Stats) :
    ((parse_nmea_sentence d c s n st).stats.last_position = st.last_position ∧
     (parse_nmea_sentence d c s n st).stats.last_update = st.last_update) ∨
    (∃ p, (parse_nmea_sentence d c s n st).point = some p ∧
      p.name = "gps_position") := by
  unfold parse_nmea_sentence
  cases hd : d s with
  | none => exact Or.inl ⟨rfl, rfl⟩
  | some msg =>
    dsimp only
    by_cases h1 : skey s = "$GPGGA" ∨ skey s = "$GPRMC"
    · rw [if_pos h1]
      cases hcp : create_position_point msg (c n) (skey s) st with
      | mk op st2 =>
        cases op with
        | some q =>
          refine Or.inr ⟨q, rfl, ?_⟩
          exact (create_position_time msg (c n) (skey s) st q (by rw [hcp])).2
        | none =>
          have hst : st2 = st := by
            have := create_position_none_frame msg (c n) (skey s) st (by rw [hcp])
            rw [hcp] at this
            exact this
          subst hst
          exact Or.inl ⟨rfl, rfl⟩
    · rw [if_neg h1]
      by_cases h2 : skey s = "$GPGSV"
      · rw [if_pos h2]
        cases create_satellite_point msg (c n) with
        | none => exact Or.inl ⟨rfl, rfl⟩
        | some q => exact Or.inl ⟨rfl, rfl⟩
      · rw [if_neg h2]
        by_cases h3 : skey s = "$GPGSA"
        · rw [if_pos h3]
          cases create_dop_point msg (c n) with
          | none => exact Or.inl ⟨rfl, rfl⟩
          | some q => exact Or.inl ⟨rfl, rfl⟩
        · rw [if_neg h3]
          by_cases h4 : skey s = "$GPVTG"
          · rw [if_pos h4]
            cases create_navigation_point msg (c n) with
            | none => exact Or.inl ⟨rfl, rfl⟩
            | some q => exact Or.inl ⟨rfl, rfl⟩
          · rw [if_neg h4]
            exact Or.inl ⟨rfl, rfl⟩

/-! ### Batch-step lemmas -/

/-- Unfolding of the candidate test. -/
theorem isValid_eq (s : String) :
    isValidCandidate s =
      (isCand (stripStr s).data &&
        !((stripStr s).data.contains '\n' || (stripStr s).data.contains '\r')) := rfl

/-- A candidate list starting with `$`. -/
theorem isCand_cons (cs : List Char) (h : isCand cs = true) :
    ∃ rest, cs = '$' :: rest := by
  cases cs with
  | nil => simp [isCand] at h
  | cons c rest =>
    have hc : c = '$' := by simpa [isCand] using h
    exact ⟨rest, by rw [hc]⟩

/-- The 6-character key of a `$`-prefixed candidate is never one of the
synthetic skip markers. -/
theorem key_ne_synthetic (cs : List Char) (h : isCand cs = true) :
    ((⟨cs.take 6⟩ : String) ≠ "invalid") ∧
    ((⟨cs.take 6⟩ : String) ≠ "embedded-newlines") := by
  obtain ⟨rest, hcs⟩ := isCand_cons cs h
  subst hcs
  constructor
  · intro he
    have hd := congrArg String.data he
    rw [show ("invalid" : String).data = ['i', 'n', 'v', 'a', 'l', 'i', 'd'] from rfl] at hd
    simp [List.take_succ_cons] at hd
  · intro he
    have hd := congrArg String.data he
    rw [show ("embedded-newlines" : String).data =
      ['e', 'm', 'b', 'e', 'd', 'd', 'e', 'd', '-', 'n', 'e', 'w', 'l', 'i', 'n', 'e', 's']
      from rfl] at hd
    simp [List.take_succ_cons] at hd

/-- Bumping a tally raises its total count by one. -/
theorem bump_sum (t : List (String × ℕ)) (k : String) :
    tallySum (bump t k) = tallySum t + 1 := by
  induction t with
  | nil => simp [bump, tallySum]
  | cons kv rest ih =>
    obtain ⟨a, cnt⟩ := kv
    by_cases h : a = k
    · simp [bump, h, tallySum]
      omega
    · simp only [bump, if_neg h, tallySum, List.map_cons, List.sum_cons] at ih ⊢
      omega

/-- The three skip classifications of a skip entry are mutually exclusive
and exhaustive. -/
theorem skip_partition (sk : List String) :
    invCount sk + embCount sk + typedCount sk = sk.length := by
  induction sk with
  | nil => simp [invCount, embCount, typedCount]
  | cons r rest ih =>
    by_cases h1 : r = "invalid" <;> by_cases h2 : r = "embedded-newlines" <;>
      simp [invCount, embCount, typedCount, List.countP_cons, h1, h2] at ih ⊢ <;>
      omega

/-- The 6-character key of a `$`-prefixed candidate differs from the
synthetic skip markers. -/
theorem skey_ne_synthetic (s : String) (h : isCand s.data = true) :
    skey s ≠ "invalid" ∧ skey s ≠ "embedded-newlines" :=
  key_ne_synthetic s.data h

/-- Characterization of one loop iteration of `parse_nmea_sentences`: an
invalid line, an embedded-newline line, a parsed sentence, or a skipped
sentence. -/
theorem step_char (d : String → Option GpsMsg) (c : ℕ → ℕ) (acc : BatchResult)
    (s : String) :
    (isValidCandidate s = false ∧
      (step d c acc s = { acc with skipped := acc.skipped ++ ["invalid"] } ∨
       step d c acc s = { acc with skipped := acc.skipped ++ ["embedded-newlines"] })) ∨
    (isValidCandidate s = true ∧
      ((∃ p, (parse_nmea_sentence d c (stripStr s) acc.clk acc.stats).point = some p ∧
          step d c acc s = { acc with
            points := acc.points ++ [p],
            parsed := acc.parsed ++ [skey (stripStr s)],
            tally := bump acc.tally (skey (stripStr s)),
            clk := (parse_nmea_sentence d c (stripStr s) acc.clk acc.stats).clk,
            stats := (parse_nmea_sentence d c (stripStr s) acc.clk acc.stats).stats,
            decodeCalls := acc.decodeCalls +
              (parse_nmea_sentence d c (stripStr s) acc.clk acc.stats).decodeCalls }) ∨
       ((parse_nmea_sentence d c (stripStr s) acc.clk acc.stats).point = none ∧
          step d c acc s = { acc with
            skipped := acc.skipped ++ [skey (stripStr s)],
            tally := bump acc.tally (skey (stripStr s)),
            clk := (parse_nmea_sentence d c (stripStr s) acc.clk acc.stats).clk,
            stats := (parse_nmea_sentence d c (stripStr s) acc.clk acc.stats).stats,
            decodeCalls := acc.decodeCalls +
              (parse_nmea_sentence d c (stripStr s) acc.clk acc.stats).decodeCalls }))) := by
  unfold step
  by_cases hc1 : isCand (stripStr s).data = false
  · rw [if_pos hc1]
    exact Or.inl ⟨by rw [isValid_eq, hc1]; rfl, Or.inl rfl⟩
  · rw [if_neg hc1]
    have hc1t : isCand (stripStr s).data = true := by
      rcases Bool.eq_false_or_eq_true (isCand (stripStr s).data) with h | h
      · exact h
      · exact absurd h hc1
    by_cases hc2 : ((stripStr s).data.contains '\n' || (stripStr s).data.contains '\r') = true
    · rw [if_pos hc2]
      exact Or.inl ⟨by rw [isValid_eq, hc1t, hc2]; rfl, Or.inr rfl⟩
    · rw [if_neg hc2]
      have hc2f : ((stripStr s).data.contains '\n' || (stripStr s).data.contains '\r') = false := by
        rcases Bool.eq_false_or_eq_true
            ((stripStr s).data.contains '\n' || (stripStr s).data.contains '\r') with h | h
        · exact absurd h hc2
        · exact h
      refine Or.inr ⟨by rw [isValid_eq, hc1t, hc2f]; rfl, ?_⟩
      dsimp only
      cases hpt : (parse_nmea_sentence d c (stripStr s) acc.clk acc.stats).point with
      | some p => exact Or.inl ⟨p, rfl, rfl⟩
      | none => exact Or.inr ⟨rfl, rfl⟩

/-- One step raises the tally total by one exactly on a valid candidate. -/
theorem step_tally (d : String → Option GpsMsg) (c : ℕ → ℕ) (acc : BatchResult)
    (s : String) :
    tallySum (step d c acc s).tally =
      tallySum acc.tally + (if isValidCandidate s = true then 1 else 0) := by
  rcases step_char d c acc s with ⟨hval, he | he⟩ | ⟨hval, ⟨p, hpt, he⟩ | ⟨hpt, he⟩⟩ <;>
    rw [he] <;> simp [hval, bump_sum]

/-- One step adds exactly one parsed or skipped entry. -/
theorem step_outcome (d : String → Option GpsMsg) (c : ℕ → ℕ) (acc : BatchResult)
    (s : String) :
    (step d c acc s).parsed.length + (step d c acc s).skipped.length =
      acc.parsed.length + acc.skipped.length + 1 := by
  rcases step_char d c acc s with ⟨hval, he | he⟩ | ⟨hval, ⟨p, hpt, he⟩ | ⟨hpt, he⟩⟩ <;>
    rw [he] <;> simp <;> omega

/-- One step raises parsed-plus-typed-skip count by one exactly on a valid
candidate. -/
theorem step_m1 (d : String → Option GpsMsg) (c : ℕ → ℕ) (acc : BatchResult)
    (s : String) :
    (step d c acc s).parsed.length + typedCount (step d c acc s).skipped =
      acc.parsed.length + typedCount acc.skipped +
        (if isValidCandidate s = true then 1 else 0) := by
  rcases step_char d c acc s with ⟨hval, he | he⟩ | ⟨hval, ⟨p, hpt, he⟩ | ⟨hpt, he⟩⟩
  · rw [he]
    simp [hval, typedCount, List.countP_append]
  · rw [he]
    simp [hval, typedCount, List.countP_append]
  · rw [he]
    simp [hval]
    omega
  · rw [he]
    have hc1t : isCand (stripStr s).data = true := by
      rw [isValid_eq, Bool.and_eq_true] at hval
      exact hval.1
    obtain ⟨hne1, hne2⟩ := skey_ne_synthetic (stripStr s) hc1t
    simp [hval, typedCount, List.countP_append, hne1, hne2]
    omega

/-- One step only appends points. -/
theorem step_points_mono (d : String → Option GpsMsg) (c : ℕ → ℕ)
    (acc : BatchResult) (s : String) :
    ∃ l, (step d c acc s).points = acc.points ++ l := by
  rcases step_char d c acc s with ⟨_, he | he⟩ | ⟨_, ⟨p, _, he⟩ | ⟨_, he⟩⟩
  · exact ⟨[], by rw [he]; simp⟩
  · exact ⟨[], by rw [he]; simp⟩
  · exact ⟨[p], by rw [he]⟩
  · exact ⟨[], by rw [he]; simp⟩

/-- One step either preserves the last-position statistics or appends a
`gps_position` point. -/
theorem step_frame (d : String → Option GpsMsg) (c : ℕ → ℕ) (acc : BatchResult)
    (s : String) :
    ((step d c acc s).stats.last_position = acc.stats.last_position ∧
     (step d c acc s).stats.last_update = acc.stats.last_update) ∨
    (∃ p, (step d c acc s).points = acc.points ++ [p] ∧ p.name = "gps_position") := by
  rcases step_char d c acc s with ⟨_, he | he⟩ | ⟨_, hrest⟩
  · rw [he]
    exact Or.inl ⟨rfl, rfl⟩
  · rw [he]
    exact Or.inl ⟨rfl, rfl⟩
  · rcases parse_frame d c (stripStr s) acc.clk acc.stats with ⟨h1, h2⟩ | ⟨q, hq, hname⟩
    · rcases hrest with ⟨p, hpt, he⟩ | ⟨hpt, he⟩ <;> rw [he] <;> exact Or.inl ⟨h1, h2⟩
    · rcases hrest with ⟨p, hpt, he⟩ | ⟨hpt, he⟩
      · have hqp : q = p := by
          rw [hq] at hpt
          injection hpt
        rw [he]
        exact Or.inr ⟨p, rfl, hqp ▸ hname⟩
      · rw [hpt] at hq
        cases hq

/-- A decode failure on a valid candidate is recovered locally: the sentence
is recorded as skipped under its type key and nothing else changes. -/
theorem step_decode_fail (d : String → Option GpsMsg) (c : ℕ → ℕ)
    (acc : BatchResult) (s : String) (hval : isValidCandidate s = true)
    (hd : d (stripStr s) = none) :
    step d c acc s = { acc with
      skipped := acc.skipped ++ [skey (stripStr s)],
      tally := bump acc.tally (skey (stripStr s)),
      decodeCalls := acc.decodeCalls + 1 } := by
  rcases step_char d c acc s with ⟨hv, _⟩ | ⟨_, ⟨p, hpt, he⟩ | ⟨hpt, he⟩⟩
  · rw [hval] at hv
    cases hv
  · rw [parse_decode_failure d c (stripStr s) acc.clk acc.stats hd] at hpt
    cases hpt
  · rw [he, parse_decode_failure d c (stripStr s) acc.clk acc.stats hd]

/-- An unroutable valid candidate is skipped under its type key while the
decoder is still invoked. -/
theorem step_unroutable (d : String → Option GpsMsg) (c : ℕ → ℕ)
    (acc : BatchResult) (s : String) (hval : isValidCandidate s = true)
    (hkey : skey (stripStr s) ∉
      (["$GPGGA", "$GPRMC", "$GPGSV", "$GPGSA", "$GPVTG"] : List String)) :
    (step d c acc s).skipped = acc.skipped ++ [skey (stripStr s)] ∧
    (step d c acc s).points = acc.points ∧
    (step d c acc s).parsed = acc.parsed ∧
    (step d c acc s).decodeCalls = acc.decodeCalls + 1 := by
  have hur := parse_unroutable d c (stripStr s) acc.clk acc.stats hkey
  rcases step_char d c acc s with ⟨hv, _⟩ | ⟨_, ⟨p, hpt, he⟩ | ⟨hpt, he⟩⟩
  · rw [hval] at hv
    cases hv
  · rw [hur.1] at hpt
    cases hpt
  · rw [he]
    refine ⟨rfl, rfl, rfl, ?_⟩
    rw [parse_decodeCalls]

/-! ### Whole-batch invariants -/

/-- Folding the batch step accumulates the tally total over valid candidates. -/
theorem go_tally (d : String → Option GpsMsg) (c : ℕ → ℕ) (ss : List String) :
    ∀ acc, tallySum (List.foldl (step d c) acc ss).tally =
      tallySum acc.tally + countValid ss := by
  induction ss with
  | nil =>
    intro acc
    simp [countValid]
  | cons s rest ih =>
    intro acc
    rw [List.foldl_cons, ih (step d c acc s), step_tally]
    simp only [countValid, List.countP_cons]
    omega

/-- Folding the batch step accumulates parsed-plus-typed-skip entries over
valid candidates. -/
theorem go_m1 (d : String → Option GpsMsg) (c : ℕ → ℕ) (ss : List String) :
    ∀ acc, (List.foldl (step d c) acc ss).parsed.length +
        typedCount (List.foldl (step d c) acc ss).skipped =
      acc.parsed.length + typedCount acc.skipped + countValid ss := by
  induction ss with
  | nil =>
    intro acc
    simp [countValid]
  | cons s rest ih =>
    intro acc
    rw [List.foldl_cons, ih (step d c acc s)]
    rw [step_m1]
    simp only [countValid, List.countP_cons]
    omega

/-- Every candidate contributes exactly one parsed or skipped entry. -/
theorem go_outcome (d : String → Option GpsMsg) (c : ℕ → ℕ) (ss : List String) :
    ∀ acc, (List.foldl (step d c) acc ss).parsed.length +
        (List.foldl (step d c) acc ss).skipped.length =
      acc.parsed.length + acc.skipped.length + ss.length := by
  induction ss with
  | nil =>
    intro acc
    simp
  | cons s rest ih =>
    intro acc
    rw [List.foldl_cons, ih (step d c acc s)]
    have := step_outcome d c acc s
    simp only [List.length_cons]
    omega

/-- The batch fold only appends points. -/
theorem go_points_mono (d : String → Option GpsMsg) (c : ℕ → ℕ) (ss : List String) :
    ∀ acc, ∃ l, (List.foldl (step d c) acc ss).points = acc.points ++ l := by
  induction ss with
  | nil => exact fun acc => ⟨[], by simp⟩
  | cons s rest ih =>
    intro acc
    obtain ⟨l1, h1⟩ := step_points_mono d c acc s
    obtain ⟨l2, h2⟩ := ih (step d c acc s)
    exact ⟨l1 ++ l2, by rw [List.foldl_cons, h2, h1, List.append_assoc]⟩

/-- If the batch fold produces no `gps_position` point then the
last-position statistics are unchanged. -/
theorem go_frame (d : String → Option GpsMsg) (c : ℕ → ℕ) (ss : List String) :
    ∀ acc, (∀ p ∈ (List.foldl (step d c) acc ss).points, p.name ≠ "gps_position") →
      (List.foldl (step d c) acc ss).stats.last_position = acc.stats.last_position ∧
      (List.foldl (step d c) acc ss).stats.last_update = acc.stats.last_update := by
  induction ss with
  | nil => exact fun acc _ => ⟨rfl, rfl⟩
  | cons s rest ih =>
    intro acc h
    rw [List.foldl_cons] at h ⊢
    have ih' := ih (step d c acc s) h
    rcases step_frame d c acc s with ⟨h1, h2⟩ | ⟨p, hp, hname⟩
    · exact ⟨ih'.1.trans h1, ih'.2.trans h2⟩
    · exfalso
      obtain ⟨l, hl⟩ := go_points_mono d c rest (step d c acc s)
      exact h p (by rw [hl, hp]; simp) hname

/-! ### Claim C6, amended -/

/-- Claim C6 (amended): every candidate is assigned exactly one of the four
outcomes parsed / typed-skip / invalid / embedded-newlines, and
`len(parsedTypes)` plus the typed skip entries equals the tally total,
which equals the number of valid candidates (`$`-prefixed, non-empty after
strip, AND free of embedded line terminators — the amendment the
embedded-newline counterexample forces). -/
theorem C6_amended_accounting (d : String → Option GpsMsg) (c : ℕ → ℕ)
    (ss : List String) (n : ℕ) (st : Stats) :
    (parse_nmea_sentences d c ss n st).parsed.length +
        typedCount (parse_nmea_sentences d c ss n st).skipped =
      tallySum (parse_nmea_sentences d c ss n st).tally ∧
    tallySum (parse_nmea_sentences d c ss n st).tally = countValid ss ∧
    (parse_nmea_sentences d c ss n st).parsed.length +
        (parse_nmea_sentences d c ss n st).skipped.length = ss.length ∧
    (parse_nmea_sentences d c ss n st).parsed.length +
        invCount (parse_nmea_sentences d c ss n st).skipped +
        embCount (parse_nmea_sentences d c ss n st).skipped +
        typedCount (parse_nmea_sentences d c ss n st).skipped = ss.length := by
  unfold parse_nmea_sentences
  have h1 := go_m1 d c ss (initAcc n st)
  have h2 := go_tally d c ss (initAcc n st)
  have h3 := go_outcome d c ss (initAcc n st)
  have h4 := skip_partition (List.foldl (step d c) (initAcc n st) ss).skipped
  have e1 : (initAcc n st).parsed.length = 0 := rfl
  have e2 : typedCount (initAcc n st).skipped = 0 := rfl
  have e3 : tallySum (initAcc n st).tally = 0 := rfl
  have e4 : (initAcc n st).skipped.length = 0 := rfl
  rw [e1, e2] at h1
  rw [e3] at h2
  rw [e1, e4] at h3
  refine ⟨by omega, by omega, by omega, by omega⟩

/-! ### Claim C9 -/

/-- Claim C9: no exception escapes the per-sentence step (each step is a
total function and the batch is a fold of it, so a batch is processed from
any intermediate state — appending more sentences just continues the fold);
every sentence contributes exactly one outcome; and a decode failure on a
valid candidate merely records the sentence as skipped under its type key,
leaving points, parsed list, clock and statistics unchanged. -/
theorem C9_local_recovery :
    (∀ d c (xs ys : List String) n st,
      parse_nmea_sentences d c (xs ++ ys) n st =
        List.foldl (step d c) (parse_nmea_sentences d c xs n st) ys) ∧
    (∀ d c (ss : List String) n st,
      (parse_nmea_sentences d c ss n st).parsed.length +
        (parse_nmea_sentences d c ss n st).skipped.length = ss.length) ∧
    (∀ d c acc s, isValidCandidate s = true → d (stripStr s) = none →
      step d c acc s = { acc with
        skipped := acc.skipped ++ [skey (stripStr s)],
        tally := bump acc.tally (skey (stripStr s)),
        decodeCalls := acc.decodeCalls + 1 }) := by
  refine ⟨?_, ?_, ?_⟩
  · intro d c xs ys n st
    unfold parse_nmea_sentences
    rw [List.foldl_append]
  · intro d c ss n st
    have h3 := go_outcome d c ss (initAcc n st)
    simpa [initAcc] using h3
  · exact fun d c acc s hval hd => step_decode_fail d c acc s hval hd

/-- Witness for C9 at a concrete decode-failing candidate. -/
theorem C9_local_recovery_witness :
    isValidCandidate "$GPGGA,x" = true ∧
    dNever (stripStr "$GPGGA,x") = none ∧
    step dNever cIdent (initAcc 0 st0) "$GPGGA,x" = { (initAcc 0 st0) with
      skipped := (initAcc 0 st0).skipped ++ [skey (stripStr "$GPGGA,x")],
      tally := bump (initAcc 0 st0).tally (skey (stripStr "$GPGGA,x")),
      decodeCalls := (initAcc 0 st0).decodeCalls + 1 } :=
  ⟨by decide, rfl,
   C9_local_recovery.2.2 dNever cIdent (initAcc 0 st0) "$GPGGA,x" (by decide) rfl⟩

/-! ### Claim C10 -/

/-- Claim C10: only the position builder writes `last_position` and
`last_update` — a batch whose processing builds no `gps_position` point
leaves both statistics fields unchanged. -/
theorem C10_last_position_frame (d : String → Option GpsMsg) (c : ℕ → ℕ)
    (ss : List String) (n : ℕ) (st : Stats)
    (h : ∀ p ∈ (parse_nmea_sentences d c ss n st).points, p.name ≠ "gps_position") :
    (parse_nmea_sentences d c ss n st).stats.last_position = st.last_position ∧
    (parse_nmea_sentences d c ss n st).stats.last_update = st.last_update := by
  unfold parse_nmea_sentences at h ⊢
  simpa [initAcc] using go_frame d c ss (initAcc n st) h

/-- A decoder returning the basic-fields GSV sentence. -/
def dGsv : String → Option GpsMsg := fun _ => some msgGsvBasic

/-- A one-sentence GSV batch; it parses into a `satellite_data` point. -/
def resC10 : BatchResult := parse_nmea_sentences dGsv cIdent ["$GPGSV,1"] 0 st0

/-- Witness for C10: the GSV batch builds a point and bumps the
`sentences_parsed` counter while leaving the last-position fields alone. -/
theorem C10_last_position_frame_witness :
    (∀ p ∈ resC10.points, p.name ≠ "gps_position") ∧
    resC10.stats.last_position = st0.last_position ∧
    resC10.stats.last_update = st0.last_update ∧
    resC10.stats.sentences_parsed = st0.sentences_parsed + 1 := by
  have h : ∀ p ∈ resC10.points, p.name ≠ "gps_position" := by decide
  have h2 := C10_last_position_frame dGsv cIdent ["$GPGSV,1"] 0 st0 h
  exact ⟨h, h2.1, h2.2, by decide⟩

/-! ### Claim C1, amended -/

/-- Claim C1 (amended): the capture-time clock is consulted once per
successfully decoded sentence — not once per batch — so the clock counter
advances by one exactly when decoding succeeds, and every point produced
carries the clock value consulted for its own sentence (never the
sentence-embedded time, which is stored only as the `gps_time` field). -/
theorem C1_amended_per_sentence_clock (d : String → Option GpsMsg) (c : ℕ → ℕ)
    (s : String) (n : ℕ) (st : Stats) :
    (d s = none → parse_nmea_sentence d c s n st = ⟨none, n, st, 1⟩) ∧
    (∀ msg, d s = some msg → (parse_nmea_sentence d c s n st).clk = n + 1) ∧
    (∀ p, (parse_nmea_sentence d c s n st).point = some p → p.time = c n) :=
  ⟨fun hd => parse_decode_failure d c s n st hd,
   fun msg hd => parse_decode_success_clk d c s n st msg hd,
   fun p hp => parse_point_time d c s n st p hp⟩

/-- The point produced from the first sentence of the `resC1` batch. -/
def ptC1 : Point := (parse_nmea_sentence dAlways cIdent "$GPGGA,1" 0 st0).point.getD dPoint

/-- Witness for C1 (amended) at a concrete decoded position sentence. -/
theorem C1_amended_witness :
    dAlways "$GPGGA,1" = some msgLatLon ∧
    (parse_nmea_sentence dAlways cIdent "$GPGGA,1" 0 st0).clk = 0 + 1 ∧
    (parse_nmea_sentence dAlways cIdent "$GPGGA,1" 0 st0).point = some ptC1 ∧
    ptC1.time = cIdent 0 := by
  have h1 : dAlways "$GPGGA,1" = some msgLatLon := rfl
  have h3 : (parse_nmea_sentence dAlways cIdent "$GPGGA,1" 0 st0).point = some ptC1 := rfl
  exact ⟨h1,
    (C1_amended_per_sentence_clock dAlways cIdent "$GPGGA,1" 0 st0).2.1 msgLatLon h1,
    h3,
    (C1_amended_per_sentence_clock dAlways cIdent "$GPGGA,1" 0 st0).2.2 ptC1 h3⟩

/-! ### Claim C4, amended -/

/-- Claim C4 (amended): a valid candidate whose 6-character type key is not
one of the five routed keys is classified skipped under its type key and
never yields a point — but the decode capability IS invoked on it (exactly
once, at line 238, before routing; the amendment the counterexample
forces). -/
theorem C4_amended_unroutable (d : String → Option GpsMsg) (c : ℕ → ℕ)
    (acc : BatchResult) (s : String) (hval : isValidCandidate s = true)
    (hkey : skey (stripStr s) ∉
      (["$GPGGA", "$GPRMC", "$GPGSV", "$GPGSA", "$GPVTG"] : List String)) :
    (∀ n st, (parse_nmea_sentence d c (stripStr s) n st).point = none ∧
      (parse_nmea_sentence d c (stripStr s) n st).decodeCalls = 1) ∧
    (step d c acc s).skipped = acc.skipped ++ [skey (stripStr s)] ∧
    (step d c acc s).points = acc.points ∧
    (step d c acc s).decodeCalls = acc.decodeCalls + 1 := by
  have h := step_unroutable d c acc s hval hkey
  exact ⟨fun n st => ⟨(parse_unroutable d c (stripStr s) n st hkey).1,
      (parse_unroutable d c (stripStr s) n st hkey).2.2⟩,
    h.1, h.2.1, h.2.2.2⟩

/-- Witness for C4 (amended) at the concrete sentence `$GPZDA,1` with a
decoder that succeeds on it. -/
theorem C4_amended_witness :
    isValidCandidate "$GPZDA,1" = true ∧
    skey (stripStr "$GPZDA,1") ∉
      (["$GPGGA", "$GPRMC", "$GPGSV", "$GPGSA", "$GPVTG"] : List String) ∧
    (parse_nmea_sentence dAlways cIdent (stripStr "$GPZDA,1") 0 st0).point = none ∧
    (parse_nmea_sentence dAlways cIdent (stripStr "$GPZDA,1") 0 st0).decodeCalls = 1 ∧
    (step dAlways cIdent (initAcc 0 st0) "$GPZDA,1").skipped =
      (initAcc 0 st0).skipped ++ [skey (stripStr "$GPZDA,1")] := by
  have hval : isValidCandidate "$GPZDA,1" = true := by decide
  have hkey : skey (stripStr "$GPZDA,1") ∉
      (["$GPGGA", "$GPRMC", "$GPGSV", "$GPGSA", "$GPVTG"] : List String) := by decide
  have h := C4_amended_unroutable dAlways cIdent (initAcc 0 st0) "$GPZDA,1" hval hkey
  exact ⟨hval, hkey, (h.1 0 st0).1, (h.1 0 st0).2, h.2.1⟩

end GPS
